import Mathlib

/-!
Shallow embedding of the paint-shop conveyor sequencer (`simulator.py`).

Two systems are modelled: the optimized `ConveyorSystem` (color-grouping
placement, O2 temp buffer, continuity-based extraction) and the baseline
`SimpleRoundRobinConveyorSystem`.  Python deques are Lean lists with the
head at the front (append at the tail, popleft at the head); the
`buffer_lines` dict keyed `"L1".."L9"` becomes a total function out of a
nine-element `LineId` type, with the fixed iteration order recorded in
`ALL_LINES`.  Integer counters are `Nat`; the penalty clock only ever
adds the 1-second constants, so it is a `Nat` as well (cast to `ℚ` for
the JPH formula).
-/

inductive Color where
  | C1 | C2 | C3 | C4 | C5 | C6 | C7 | C8 | C9 | C10 | C11 | C12
deriving DecidableEq, Repr

inductive LineId where
  | L1 | L2 | L3 | L4 | L5 | L6 | L7 | L8 | L9
deriving DecidableEq, Repr

inductive OvenType where
  | O1 | O2
deriving DecidableEq, Repr

structure VehicleBody where
  body_id : Nat
  color : Color
  source_oven : OvenType
deriving DecidableEq, Repr

/-- `BUFFER_CONFIG`: L1-L4 have capacity 14, L5-L9 capacity 16. -/
def lineCapacity : LineId → Nat
  | .L1 | .L2 | .L3 | .L4 => 14
  | _ => 16

def O1_BUFFERS : List LineId := [.L1, .L2, .L3, .L4]

def O2_BUFFERS : List LineId := [.L5, .L6, .L7, .L8, .L9]

/-- Iteration order of the `buffer_lines` dict (insertion order L1..L9). -/
def ALL_LINES : List LineId := [.L1, .L2, .L3, .L4, .L5, .L6, .L7, .L8, .L9]

structure BufferLine where
  capacity : Nat
  queue : List VehicleBody
  is_available_input : Bool
  is_available_output : Bool
deriving DecidableEq, Repr

namespace BufferLine

def is_full (l : BufferLine) : Bool := decide (l.capacity ≤ l.queue.length)

def is_empty (l : BufferLine) : Bool := l.queue.isEmpty

/-- `add_body`: fails (line unchanged) when input is closed or the line is
full; otherwise appends at the tail. -/
def add_body (l : BufferLine) (b : VehicleBody) : BufferLine × Bool :=
  if !l.is_available_input || l.is_full then (l, false)
  else ({ l with queue := l.queue ++ [b] }, true)

/-- `remove_body`: yields nothing (line unchanged) when output is closed or
the line is empty; otherwise pops the head. -/
def remove_body (l : BufferLine) : Option VehicleBody × BufferLine :=
  if !l.is_available_output || l.queue.isEmpty then (none, l)
  else (l.queue.head?, { l with queue := l.queue.tail })

def peek_head (l : BufferLine) : Option VehicleBody := l.queue.head?

def get_remaining_capacity (l : BufferLine) : Nat := l.capacity - l.queue.length

end BufferLine

def initLine (c : Nat) : BufferLine := ⟨c, [], true, true⟩

/-- Point update of the line map (assignment into the Python dict). -/
def updateLine (f : LineId → BufferLine) (bid : LineId) (nl : BufferLine) :
    LineId → BufferLine :=
  fun l => if l = bid then nl else f l

/-- Length of the maximal run of `c`-colored bodies at the front of a list. -/
def countSameFrom (c : Color) : List VehicleBody → Nat
  | [] => 0
  | b :: t => if b.color = c then 1 + countSameFrom c t else 0

/-- One entry of `main_conveyor_sequence`. -/
structure ConvEntry where
  color : Color
  buffer : LineId
  id : Nat
  color_change : Bool
deriving DecidableEq, Repr

structure ConveyorSystem where
  buffer_lines : LineId → BufferLine
  main_conveyor_last_color : Option Color
  color_changeovers : Nat
  total_processed : Nat
  body_counter : Nat
  penaltyCount : Nat
  o2Stopped : Bool
  main_conveyor_sequence : List ConvEntry
  o2_temp_buffer : List VehicleBody
  total_penalty_time : Nat

def initConveyorSystem : ConveyorSystem :=
  { buffer_lines := fun l => initLine (lineCapacity l)
    main_conveyor_last_color := none
    color_changeovers := 0
    total_processed := 0
    body_counter := 0
    penaltyCount := 0
    o2Stopped := false
    main_conveyor_sequence := []
    o2_temp_buffer := []
    total_penalty_time := 0 }

namespace ConveyorSystem

def is_full (s : ConveyorSystem) (bid : LineId) : Bool := (s.buffer_lines bid).is_full

def is_empty (s : ConveyorSystem) (bid : LineId) : Bool := (s.buffer_lines bid).is_empty

def get_rear_color (s : ConveyorSystem) (bid : LineId) : Option Color :=
  ((s.buffer_lines bid).queue.getLast?).map (·.color)

/-- `get_rear_color_group_size`: run length of the rear color, from the rear. -/
def get_rear_color_group_size (s : ConveyorSystem) (bid : LineId) : Nat :=
  match (s.buffer_lines bid).queue.getLast? with
  | none => 0
  | some b => countSameFrom b.color (s.buffer_lines bid).queue.reverse

def is_fully_of_color (s : ConveyorSystem) (bid : LineId) (c : Color) : Bool :=
  !(s.buffer_lines bid).queue.isEmpty &&
    (s.buffer_lines bid).queue.all (fun b => decide (b.color = c))

def ends_with_color (s : ConveyorSystem) (bid : LineId) (c : Color) : Bool :=
  decide (s.get_rear_color bid = some c)

def get_space (s : ConveyorSystem) (bid : LineId) : Nat :=
  (s.buffer_lines bid).get_remaining_capacity

/-- `place_vehicle`: calls `add_body` and, like every optimized-path caller
in the source, discards the success flag. -/
def place_vehicle (s : ConveyorSystem) (bid : LineId) (b : VehicleBody) : ConveyorSystem :=
  { s with buffer_lines := updateLine s.buffer_lines bid ((s.buffer_lines bid).add_body b).1 }

/-- `f1` (fit_into_group): three priority passes over the group in fixed
order.  NOTE: faithfully to the source, the second pass (ends-with-color)
does not test `is_available_input`. -/
def f1 (s : ConveyorSystem) (ids : List LineId) (c : Color) : Option LineId :=
  match ids.find? (fun bid =>
      (s.buffer_lines bid).is_available_input &&
      s.is_fully_of_color bid c && !s.is_full bid) with
  | some bid => some bid
  | none =>
    match ids.find? (fun bid => s.ends_with_color bid c && !s.is_full bid) with
    | some bid => some bid
    | none =>
      ids.find? (fun bid =>
        (s.buffer_lines bid).is_available_input && s.is_empty bid)

end ConveyorSystem

/-- Comparator for the stable sort keys `(rear_run, -space)` with the list
position appended: `a` precedes-or-equals `b` when its rear run is
smaller, or equal rear run and larger space, or both equal and an
earlier position.  The head of Python's stable sort is the unique
minimum under this order. -/
def breakLe (a b : Nat × Nat × Nat) : Bool :=
  decide (a.1 < b.1) ||
    (decide (a.1 = b.1) &&
      (decide (b.2.1 < a.2.1) ||
        (decide (a.2.1 = b.2.1) && decide (a.2.2 ≤ b.2.2))))

/-- First element of the list minimal under `breakLe ∘ key` (equivalently:
stable-sort by the key and take element 0). -/
def pickFirstMin (key : LineId → Nat × Nat × Nat) : List LineId → Option LineId
  | [] => none
  | x :: xs =>
    match pickFirstMin key xs with
    | none => some x
    | some y => if breakLe (key x) (key y) then some x else some y

namespace ConveyorSystem

/-- `find_buffer_to_break` (force_into_group): among input-open non-full
lines, the first minimizer of `(rear_run_size, -remaining_space)` after a
stable sort.  (The `c` argument is unused, exactly as in the source.) -/
def find_buffer_to_break (s : ConveyorSystem) (ids : List LineId) (_c : Color) :
    Option LineId :=
  pickFirstMin
    (fun bid => (s.get_rear_color_group_size bid, s.get_space bid, ids.indexOf bid))
    (ids.filter (fun bid => (s.buffer_lines bid).is_available_input && !s.is_full bid))

/-- `place_for_o1` (optimized): clears `o2Stopped`, tries fit on L1-L4,
fit on L5-L9 (penalty, blocks O2), force on L1-L4, force on L5-L9
(penalty, blocks O2).  Returns (state, line?, crossed, penalty_applied). -/
def place_for_o1 (s : ConveyorSystem) (b : VehicleBody) :
    ConveyorSystem × Option LineId × Bool × Bool :=
  let s := { s with o2Stopped := false }
  match s.f1 O1_BUFFERS b.color with
  | some bid => (s.place_vehicle bid b, some bid, false, false)
  | none =>
    match s.f1 O2_BUFFERS b.color with
    | some bid =>
      let s := { s with penaltyCount := s.penaltyCount + 1, o2Stopped := true }
      let s := s.place_vehicle bid b
      ({ s with total_penalty_time := s.total_penalty_time + 1 }, some bid, true, true)
    | none =>
      match s.find_buffer_to_break O1_BUFFERS b.color with
      | some bid => (s.place_vehicle bid b, some bid, false, false)
      | none =>
        match s.find_buffer_to_break O2_BUFFERS b.color with
        | some bid =>
          let s := { s with penaltyCount := s.penaltyCount + 1, o2Stopped := true }
          let s := s.place_vehicle bid b
          ({ s with total_penalty_time := s.total_penalty_time + 1 }, some bid, true, true)
        | none => (s, none, false, false)

end ConveyorSystem

/-- Result of `place_for_o2`: a buffer line, the `"TMP_BUFFER"` sentinel,
or `None`. -/
inductive O2PlaceResult where
  | line (bid : LineId)
  | tmp
  | failed
deriving DecidableEq, Repr

namespace ConveyorSystem

/-- `place_for_o2` (optimized): while O2 is blocked or the temp buffer is
non-empty the body is appended to the temp buffer; otherwise fit then
force over L5-L9. -/
def place_for_o2 (s : ConveyorSystem) (b : VehicleBody) :
    ConveyorSystem × O2PlaceResult :=
  if s.o2Stopped || !s.o2_temp_buffer.isEmpty then
    ({ s with o2_temp_buffer := s.o2_temp_buffer ++ [b] }, .tmp)
  else
    match s.f1 O2_BUFFERS b.color with
    | some bid => (s.place_vehicle bid b, .line bid)
    | none =>
      match s.find_buffer_to_break O2_BUFFERS b.color with
      | some bid => (s.place_vehicle bid b, .line bid)
      | none => (s, .failed)

/-- `process_o2_temp_buffer`: pop the temp-queue head, fit then force over
L5-L9; on failure push the body back to the head and report nothing. -/
def process_o2_temp_buffer (s : ConveyorSystem) :
    ConveyorSystem × Option (VehicleBody × LineId) :=
  match s.o2_temp_buffer with
  | [] => (s, none)
  | hd :: t =>
    if s.o2Stopped then (s, none)
    else
      let s1 := { s with o2_temp_buffer := t }
      match s1.f1 O2_BUFFERS hd.color with
      | some bid => (s1.place_vehicle bid hd, some (hd, bid))
      | none =>
        match s1.find_buffer_to_break O2_BUFFERS hd.color with
        | some bid => (s1.place_vehicle bid hd, some (hd, bid))
        | none => ({ s1 with o2_temp_buffer := hd :: t }, none)

end ConveyorSystem

/-- Insert-or-update into an association list, keeping the position of an
existing key (Python dict assignment). -/
def assocSet {α : Type} : List (Color × α) → Color → α → List (Color × α)
  | [], c, v => [(c, v)]
  | (k, w) :: t, c, v =>
    if k = c then (c, v) :: t else (k, w) :: assocSet t c v

def assocGet {α : Type} (m : List (Color × α)) (c : Color) : Option α :=
  (m.find? (fun p => decide (p.1 = c))).map (·.2)

/-- Strict `<` on the Python tuples `(remaining_capacity, -connected_count,
line_id)`, with the line id replaced by its index in `ALL_LINES` (string
order on `"L1".."L9"` agrees with that index order). -/
def metaTupleLt (a b : Nat × Nat × Nat) : Bool :=
  decide (a.1 < b.1) ||
    (decide (a.1 = b.1) &&
      (decide (b.2.1 < a.2.1) ||
        (decide (a.2.1 = b.2.1) && decide (a.2.2 < b.2.2))))

namespace ConveyorSystem

/-- The two dicts built by `f1_find_max_connected_color`: `color_counts`
(head color ↦ max head-run) and `buffer_meta` (head color ↦ (line,
head-run, remaining capacity) of the first line attaining the strictly
largest run). -/
def buildColorTables (s : ConveyorSystem) :
    List (Color × Nat) × List (Color × (LineId × Nat × Nat)) :=
  ALL_LINES.foldl
    (fun acc l =>
      let (cc, bm) := acc
      let line := s.buffer_lines l
      if line.is_empty || !line.is_available_output then (cc, bm)
      else
        match line.queue.head? with
        | none => (cc, bm)
        | some hb =>
          let hc := hb.color
          let count := countSameFrom hc line.queue
          let cc' := assocSet cc hc (max ((assocGet cc hc).getD 0) count)
          let bm' :=
            match assocGet bm hc with
            | none => assocSet bm hc (l, count, line.get_remaining_capacity)
            | some (_, c0, _) =>
              if count > c0 then assocSet bm hc (l, count, line.get_remaining_capacity)
              else bm
          (cc', bm'))
    ([], [])

/-- The tie-break loop at the end of `f1_find_max_connected_color`:
first candidate color whose meta tuple is strictly smallest. -/
def pickBestColor (bm : List (Color × (LineId × Nat × Nat))) (cands : List Color) :
    Option Color :=
  (cands.foldl
    (fun acc c =>
      match assocGet bm c with
      | none => acc
      | some (lid, cnt, rem) =>
        let tup := (rem, cnt, ALL_LINES.indexOf lid)
        match acc with
        | none => some (c, tup)
        | some (c0, t0) =>
          if metaTupleLt tup t0 then some (c, tup) else some (c0, t0))
    none).map (·.1)

def f1_find_max_connected_color (s : ConveyorSystem) : Option Color :=
  let (cc, bm) := s.buildColorTables
  if cc.isEmpty then none
  else
    let maxFreq := (cc.map (·.2)).foldl max 0
    let candidates := (cc.filter (fun p => decide (p.2 = maxFreq))).map (·.1)
    match candidates with
    | [c] => some c
    | _ => pickBestColor bm candidates

/-- `f2_choose_buffer_for_color`: among non-empty output-open lines whose
head has the target color, stable-sort by remaining capacity and take the
first. -/
def f2_choose_buffer_for_color (s : ConveyorSystem) (c : Color) : Option LineId :=
  pickFirstMin (fun bid => (s.get_space bid, 0, ALL_LINES.indexOf bid))
    (ALL_LINES.filter (fun bid =>
      !(s.buffer_lines bid).is_empty &&
      (s.buffer_lines bid).is_available_output &&
      decide (((s.buffer_lines bid).peek_head).map (·.color) = some c)))

/-- `are_all_o2_buffers_full`: no L5-L9 line is input-open and non-full. -/
def are_all_o2_buffers_full (s : ConveyorSystem) : Bool :=
  O2_BUFFERS.all (fun bid =>
    !((s.buffer_lines bid).is_available_input && !s.is_full bid))

/-- Non-empty output-open lines whose head matches the given color, in
dict order. -/
def matchingBuffers (s : ConveyorSystem) (c : Color) : List LineId :=
  ALL_LINES.filter (fun bid =>
    !(s.buffer_lines bid).is_empty &&
    (s.buffer_lines bid).is_available_output &&
    decide (((s.buffer_lines bid).peek_head).map (·.color) = some c))

/-- Fall-through tail of `select_buffer_for_main_conveyor`: max connected
color, then its best line. -/
def selectByMaxConnected (s : ConveyorSystem) : Option LineId :=
  match s.f1_find_max_connected_color with
  | some c => s.f2_choose_buffer_for_color c
  | none => none

/-- `select_buffer_for_main_conveyor` (optimized). -/
def select_buffer_for_main_conveyor (s : ConveyorSystem) : Option LineId :=
  if s.are_all_o2_buffers_full then s.selectByMaxConnected
  else
    match s.main_conveyor_last_color with
    | some lc =>
      match s.matchingBuffers lc with
      | [] => s.selectByMaxConnected
      | _ :: _ =>
        pickFirstMin (fun bid => (s.get_space bid, 0, ALL_LINES.indexOf bid))
          (s.matchingBuffers lc)
    | none => s.selectByMaxConnected

end ConveyorSystem

/-- Idealized `update_jph` with exact rational arithmetic:
`jph = processed / (processed · 1 + penalty) · 3600`, and `0` unless the
denominator is positive. -/
def jphValue (total_processed : ℕ) (total_penalty_time : ℚ) : ℚ :=
  let base := (total_processed : ℚ) * 1
  let tot := base + total_penalty_time
  if 0 < tot then (total_processed : ℚ) / tot * 3600 else 0

def ConveyorSystem.update_jph (s : ConveyorSystem) : ℚ :=
  jphValue s.total_processed (s.total_penalty_time : ℚ)

/-- Scan of Python's round-robin loops: probe `ids[counter]`, on failure
advance the counter modulo the group size, for at most `fuel` probes;
yields the counter value at the first line satisfying `p`. -/
def rrScan (p : LineId → Bool) (ids : List LineId) : Nat → Nat → Option Nat
  | _, 0 => none
  | counter, fuel + 1 =>
    if p (ids.getD counter .L1) then some counter
    else rrScan p ids ((counter + 1) % ids.length) fuel

structure SimpleRoundRobinConveyorSystem where
  buffer_lines : LineId → BufferLine
  main_conveyor_last_color : Option Color
  color_changeovers : Nat
  total_processed : Nat
  body_counter : Nat
  penaltyCount : Nat
  o2Stopped : Bool
  o1_buffer_counter : Nat
  o2_buffer_counter : Nat
  conveyor_buffer_counter : Nat
  total_penalty_time : Nat

def initRoundRobinSystem : SimpleRoundRobinConveyorSystem :=
  { buffer_lines := fun l => initLine (lineCapacity l)
    main_conveyor_last_color := none
    color_changeovers := 0
    total_processed := 0
    body_counter := 0
    penaltyCount := 0
    o2Stopped := false
    o1_buffer_counter := 0
    o2_buffer_counter := 0
    conveyor_buffer_counter := 0
    total_penalty_time := 0 }

namespace SimpleRoundRobinConveyorSystem

def is_full (s : SimpleRoundRobinConveyorSystem) (bid : LineId) : Bool :=
  (s.buffer_lines bid).is_full

def is_empty (s : SimpleRoundRobinConveyorSystem) (bid : LineId) : Bool :=
  (s.buffer_lines bid).is_empty

def place_vehicle (s : SimpleRoundRobinConveyorSystem) (bid : LineId)
    (b : VehicleBody) : SimpleRoundRobinConveyorSystem :=
  { s with buffer_lines := updateLine s.buffer_lines bid ((s.buffer_lines bid).add_body b).1 }

/-- `simple_round_robin_placement`: first non-full line cyclically from the
group's cursor; on success the cursor moves one past the chosen slot.
The source dispatches on whether `buffer_ids` is the O1 or the O2 group;
here that dispatch is the `isO1` flag. -/
def simple_round_robin_placement (s : SimpleRoundRobinConveyorSystem)
    (isO1 : Bool) : SimpleRoundRobinConveyorSystem × Option LineId :=
  let ids := cond isO1 O1_BUFFERS O2_BUFFERS
  let start := cond isO1 s.o1_buffer_counter s.o2_buffer_counter
  match rrScan (fun bid => !s.is_full bid) ids start ids.length with
  | some j =>
    let s' :=
      cond isO1 { s with o1_buffer_counter := (j + 1) % ids.length }
        { s with o2_buffer_counter := (j + 1) % ids.length }
    (s', some (ids.getD j .L1))
  | none => (s, none)

/-- `place_for_o1` (round-robin): clears `o2Stopped`, tries L1-L4
cyclically, then L5-L9 cyclically with penalty and `o2Stopped := true`. -/
def place_for_o1 (s : SimpleRoundRobinConveyorSystem) (b : VehicleBody) :
    SimpleRoundRobinConveyorSystem × Option LineId × Bool × Bool :=
  let s := { s with o2Stopped := false }
  let p1 := s.simple_round_robin_placement true
  match p1.2 with
  | some bid => (p1.1.place_vehicle bid b, some bid, false, false)
  | none =>
    let p2 := p1.1.simple_round_robin_placement false
    match p2.2 with
    | some bid =>
      let s := { p2.1 with penaltyCount := p2.1.penaltyCount + 1, o2Stopped := true }
      let s := s.place_vehicle bid b
      ({ s with total_penalty_time := s.total_penalty_time + 1 }, some bid, true, true)
    | none => (p2.1, none, false, false)

/-- `place_for_o2` (round-robin): refused while `o2Stopped`; otherwise the
cyclic scan over L5-L9. -/
def place_for_o2 (s : SimpleRoundRobinConveyorSystem) (b : VehicleBody) :
    SimpleRoundRobinConveyorSystem × Option LineId :=
  if s.o2Stopped then (s, none)
  else
    let p := s.simple_round_robin_placement false
    match p.2 with
    | some bid => (p.1.place_vehicle bid b, some bid)
    | none => (p.1, none)

/-- `simple_round_robin_extraction`: first non-empty line cyclically over
all nine lines from the conveyor cursor; `output_open` is ignored here. -/
def simple_round_robin_extraction (s : SimpleRoundRobinConveyorSystem) :
    SimpleRoundRobinConveyorSystem × Option LineId :=
  match rrScan (fun bid => !s.is_empty bid) ALL_LINES s.conveyor_buffer_counter
      ALL_LINES.length with
  | some j =>
    ({ s with conveyor_buffer_counter := (j + 1) % ALL_LINES.length },
      some (ALL_LINES.getD j .L1))
  | none => (s, none)

def select_buffer_for_main_conveyor (s : SimpleRoundRobinConveyorSystem) :
    SimpleRoundRobinConveyorSystem × Option LineId :=
  s.simple_round_robin_extraction

end SimpleRoundRobinConveyorSystem

/-- Round-robin part of the main-conveyor extraction in `run_single_cycle`
and `run_conveyor_cycle_only`: select, `remove_body`, and on success the
changeover / penalty / counter bookkeeping. -/
def conveyorExtractRR (s : SimpleRoundRobinConveyorSystem) :
    SimpleRoundRobinConveyorSystem :=
  match s.select_buffer_for_main_conveyor with
  | (s1, none) => s1
  | (s1, some bid) =>
    match (s1.buffer_lines bid).remove_body with
    | (none, _) => s1
    | (some b, nl) =>
      let s2 := { s1 with buffer_lines := updateLine s1.buffer_lines bid nl }
      let cc :=
        match s2.main_conveyor_last_color with
        | some c => decide (c ≠ b.color)
        | none => false
      let s3 :=
        if cc then
          { s2 with color_changeovers := s2.color_changeovers + 1,
                    total_penalty_time := s2.total_penalty_time + 1 }
        else s2
      { s3 with main_conveyor_last_color := some b.color,
                total_processed := s3.total_processed + 1 }

/-- Optimized part of the main-conveyor extraction in `run_single_cycle`
and `run_conveyor_cycle_only`. -/
def conveyorExtractOpt (s : ConveyorSystem) : ConveyorSystem :=
  match s.select_buffer_for_main_conveyor with
  | none => s
  | some bid =>
    match (s.buffer_lines bid).remove_body with
    | (none, _) => s
    | (some b, nl) =>
      let s2 := { s with buffer_lines := updateLine s.buffer_lines bid nl }
      let cc :=
        match s2.main_conveyor_last_color with
        | some c => decide (c ≠ b.color)
        | none => false
      let s3 :=
        if cc then
          { s2 with color_changeovers := s2.color_changeovers + 1,
                    total_penalty_time := s2.total_penalty_time + 1 }
        else s2
      { s3 with main_conveyor_last_color := some b.color,
                total_processed := s3.total_processed + 1,
                main_conveyor_sequence :=
                  s3.main_conveyor_sequence ++ [⟨b.color, bid, b.body_id, cc⟩] }

/-- Optimized-system part of `run_single_cycle`: mint the two bodies,
place the O1 body, drain one temp entry when O2 is free and the temp
buffer non-empty, place the O2 body, then extract once. -/
def tickOpt (s : ConveyorSystem) (c1 c2 : Color) : ConveyorSystem :=
  let b1 : VehicleBody := ⟨s.body_counter + 1, c1, .O1⟩
  let s := { s with body_counter := s.body_counter + 1 }
  let b2 : VehicleBody := ⟨s.body_counter + 1, c2, .O2⟩
  let s := { s with body_counter := s.body_counter + 1 }
  let s := (s.place_for_o1 b1).1
  let s :=
    if !s.o2Stopped && !s.o2_temp_buffer.isEmpty then (s.process_o2_temp_buffer).1
    else s
  let s := (s.place_for_o2 b2).1
  conveyorExtractOpt s

/-- A user-interface action on the optimized system: the Full Cycle
button, the Conveyor Extract button, or one of the per-line gate
checkboxes. -/
inductive UIStep where
  | fullCycle (c1 c2 : Color)
  | convOnly
  | setInput (l : LineId) (v : Bool)
  | setOutput (l : LineId) (v : Bool)

def applyStep (s : ConveyorSystem) : UIStep → ConveyorSystem
  | .fullCycle c1 c2 => tickOpt s c1 c2
  | .convOnly => conveyorExtractOpt s
  | .setInput l v =>
    { s with buffer_lines :=
        updateLine s.buffer_lines l { s.buffer_lines l with is_available_input := v } }
  | .setOutput l v =>
    { s with buffer_lines :=
        updateLine s.buffer_lines l { s.buffer_lines l with is_available_output := v } }

def runSteps (s : ConveyorSystem) (steps : List UIStep) : ConveyorSystem :=
  steps.foldl applyStep s

/-- The nine queues, in dict order (used to state that a call left every
buffer queue unchanged). -/
def queuesOf (s : ConveyorSystem) : List (List VehicleBody) :=
  ALL_LINES.map (fun l => (s.buffer_lines l).queue)

def queuesOfRR (s : SimpleRoundRobinConveyorSystem) : List (List VehicleBody) :=
  ALL_LINES.map (fun l => (s.buffer_lines l).queue)

/-- Colors of the conveyor log entries, oldest first. -/
def entryColors (l : List ConvEntry) : List Color := l.map (·.color)

/-- Number of log entries whose `caused_color_change` flag is set. -/
def countFlagged (l : List ConvEntry) : Nat := (l.filter (·.color_change)).length

/-- Number of adjacent unequal-color pairs. -/
def adjUnequal : List Color → Nat
  | a :: b :: t => (if a = b then 0 else 1) + adjUnequal (b :: t)
  | _ => 0

/-- The changeover-accounting invariant (C5): the changeover counter
equals both the number of flagged entries and the number of adjacent
unequal-color pairs of the conveyor log, and the remembered last color is
the color of the log's last entry. -/
def InvC5 (s : ConveyorSystem) : Prop :=
  s.color_changeovers = countFlagged s.main_conveyor_sequence ∧
  s.color_changeovers = adjUnequal (entryColors s.main_conveyor_sequence) ∧
  s.main_conveyor_last_color = (entryColors s.main_conveyor_sequence).getLast?

/-! Concrete states used by witnesses and counterexamples. -/

/-- A state exhibiting the missing `input_open` test in fit rule (2):
L5 holds one C1 body and its input gate is closed; every other line is
empty with a closed input gate. -/
def c1FailState : ConveyorSystem :=
  { initConveyorSystem with
    buffer_lines := fun l =>
      if l = .L5 then ⟨16, [⟨1, .C1, .O2⟩], false, true⟩
      else ⟨lineCapacity l, [], false, true⟩ }

/-- A state for the C7 witness: among the O1 group, L1 has rear run 2 and
L2 rear run 1, all gates open. -/
def c7WitState : ConveyorSystem :=
  { initConveyorSystem with
    buffer_lines := fun l =>
      match l with
      | .L1 => ⟨14, [⟨1, .C3, .O1⟩, ⟨2, .C3, .O1⟩], true, true⟩
      | .L2 => ⟨14, [⟨3, .C4, .O1⟩], true, true⟩
      | _ => initLine (lineCapacity l) }

/-- A state for the C6 witness: last conveyor color C2; L1 and L2 both
have a C2 head with all gates open, L2 being fuller. -/
def c6WitState : ConveyorSystem :=
  { initConveyorSystem with
    main_conveyor_last_color := some .C2
    buffer_lines := fun l =>
      match l with
      | .L1 => ⟨14, [⟨1, .C2, .O1⟩], true, true⟩
      | .L2 => ⟨14, [⟨2, .C2, .O1⟩, ⟨3, .C2, .O1⟩], true, true⟩
      | _ => initLine (lineCapacity l) }

/-- A state for the C4 witness: one body already waits in the temp
buffer, so a fresh O2 arrival must join it. -/
def c4WitState : ConveyorSystem :=
  { initConveyorSystem with o2_temp_buffer := [⟨7, .C3, .O2⟩] }

/-- A state for the C3 witness: two bodies wait in the temp buffer and O2
is free, so one drain step should move the head into the O2 group. -/
def c3WitState : ConveyorSystem :=
  { initConveyorSystem with o2_temp_buffer := [⟨5, .C2, .O2⟩, ⟨6, .C3, .O2⟩] }

/-- The C2 counterexample state: L5 holds one C1 body with its input gate
closed, every other line is empty with a closed input gate, so an O1
placement of a C1 body is routed to L5 (fit rule 2) but the enqueue
silently fails. -/
def c2CexState : ConveyorSystem :=
  { initConveyorSystem with
    buffer_lines := fun l =>
      if l = .L5 then ⟨16, [⟨2, .C1, .O2⟩], false, true⟩
      else ⟨lineCapacity l, [], false, true⟩ }

/-- Action sequence reaching the C9 state: one full cycle on (C1, C1)
leaves one C1 body in L5 (the O1 body goes to L1 and is extracted), then
the operator closes every input gate. -/
def c9Steps : List UIStep :=
  [.fullCycle .C1 .C1,
   .setInput .L1 false, .setInput .L2 false, .setInput .L3 false, .setInput .L4 false,
   .setInput .L5 false, .setInput .L6 false, .setInput .L7 false, .setInput .L8 false,
   .setInput .L9 false]

def c9State : ConveyorSystem := runSteps initConveyorSystem c9Steps

/-- A state for the C10 witness: in the round-robin system, L1 (first in
cursor order, cursor 0) is non-empty with a closed output gate while L2
is non-empty with an open output gate. -/
def c10WitState : SimpleRoundRobinConveyorSystem :=
  { initRoundRobinSystem with
    buffer_lines := fun l =>
      match l with
      | .L1 => ⟨14, [⟨1, .C1, .O1⟩], true, false⟩
      | .L2 => ⟨14, [⟨2, .C2, .O1⟩], true, true⟩
      | _ => initLine (lineCapacity l) }

/-! ### Helper lemmas about the selection combinators -/

lemma breakLe_iff (a b : Nat × Nat × Nat) :
    breakLe a b = true ↔
      a.1 < b.1 ∨ (a.1 = b.1 ∧ (b.2.1 < a.2.1 ∨ (a.2.1 = b.2.1 ∧ a.2.2 ≤ b.2.2))) := by
  simp [breakLe]

lemma breakLe_refl (a : Nat × Nat × Nat) : breakLe a a = true := by
  rcases a with ⟨x, y, z⟩
  simp [breakLe_iff]

lemma breakLe_total (a b : Nat × Nat × Nat) :
    breakLe a b = true ∨ breakLe b a = true := by
  rcases a with ⟨x, y, z⟩
  rcases b with ⟨x', y', z'⟩
  simp only [breakLe_iff]
  omega

lemma breakLe_trans (a b c : Nat × Nat × Nat) :
    breakLe a b = true → breakLe b c = true → breakLe a c = true := by
  rcases a with ⟨x, y, z⟩
  rcases b with ⟨x', y', z'⟩
  rcases c with ⟨x'', y'', z''⟩
  simp only [breakLe_iff]
  omega

lemma pickFirstMin_eq_none_iff (key : LineId → Nat × Nat × Nat) (xs : List LineId) :
    pickFirstMin key xs = none ↔ xs = [] := by
  cases xs with
  | nil => simp [pickFirstMin]
  | cons x xs =>
    simp only [pickFirstMin]
    cases h : pickFirstMin key xs with
    | none => simp
    | some y =>
      constructor
      · intro hc
        by_cases hb : breakLe (key x) (key y) = true <;> simp [hb] at hc
      · intro hc
        exact absurd hc (List.cons_ne_nil _ _)

lemma pickFirstMin_mem (key : LineId → Nat × Nat × Nat) :
    ∀ {xs : List LineId} {y : LineId}, pickFirstMin key xs = some y → y ∈ xs := by
  intro xs
  induction xs with
  | nil => intro y h; simp [pickFirstMin] at h
  | cons x xs ih =>
    intro y h
    simp only [pickFirstMin] at h
    cases hx : pickFirstMin key xs with
    | none =>
      rw [hx] at h
      cases h
      exact List.mem_cons_self _ _
    | some y' =>
      rw [hx] at h
      have h' : (if breakLe (key x) (key y') = true then some x else some y') = some y := h
      by_cases hb : breakLe (key x) (key y') = true
      · rw [if_pos hb] at h'
        cases h'
        exact List.mem_cons_self _ _
      · rw [if_neg hb] at h'
        cases h'
        exact List.mem_cons_of_mem _ (ih hx)

lemma pickFirstMin_min (key : LineId → Nat × Nat × Nat) :
    ∀ {xs : List LineId} {y : LineId}, pickFirstMin key xs = some y →
      ∀ x ∈ xs, breakLe (key y) (key x) = true := by
  intro xs
  induction xs with
  | nil => intro y h; simp [pickFirstMin] at h
  | cons x xs ih =>
    intro y h z hz
    simp only [pickFirstMin] at h
    cases hx : pickFirstMin key xs with
    | none =>
      rw [hx] at h
      cases h
      rcases List.mem_cons.1 hz with hz | hz
      · subst hz; exact breakLe_refl _
      · exact absurd ((pickFirstMin_eq_none_iff key xs).1 hx ▸ hz) (by simp)
    | some y' =>
      rw [hx] at h
      have h' : (if breakLe (key x) (key y') = true then some x else some y') = some y := h
      by_cases hb : breakLe (key x) (key y') = true
      · rw [if_pos hb] at h'
        cases h'
        rcases List.mem_cons.1 hz with hz | hz
        · subst hz; exact breakLe_refl _
        · exact breakLe_trans _ _ _ hb (ih hx z hz)
      · rw [if_neg hb] at h'
        cases h'
        rcases List.mem_cons.1 hz with rfl | hz
        · rcases breakLe_total (key z) (key y) with hb' | hb'
          · exact absurd hb' hb
          · exact hb'
        · exact ih hx z hz

/-! ### C1: the ends-with-color fit rule and the input gate -/


/-- C1: the claim that `f1` (fit_into_group) honors `input_open` in all
three rules fails on the code: with every input gate closed and L5 ending
in C1, `f1` over the O2 group still returns L5 through rule (2), whose
filter omits `is_available_input`.  (The spec flags this as the intended
requirement; the source is the slip.) -/
theorem fit_rule2_ignores_input_gate :
    c1FailState.f1 O2_BUFFERS .C1 = some .L5 ∧
      (c1FailState.buffer_lines .L5).is_available_input = false := by
  constructor
  · rfl
  · rfl

/-! ### C8: the JPH scoring function -/

/-- C8: `jphValue` is the spec formula (and 0 on a zero denominator), and
at any fixed non-negative penalty time it is non-decreasing in the
processed count. -/
theorem jph_formula_monotone :
    (∀ (p : ℕ) (t : ℚ), 0 < (p : ℚ) * 1 + t →
        jphValue p t = (p : ℚ) / ((p : ℚ) * 1 + t) * 3600) ∧
    (∀ (p : ℕ) (t : ℚ), (p : ℚ) * 1 + t = 0 → jphValue p t = 0) ∧
    (∀ (p₁ p₂ : ℕ) (t : ℚ), 0 ≤ t → p₁ ≤ p₂ → jphValue p₁ t ≤ jphValue p₂ t) := by
  refine ⟨?_, ?_, ?_⟩
  · intro p t h
    simp only [jphValue]
    rw [if_pos h]
  · intro p t h
    simp only [jphValue]
    rw [h]
    norm_num
  · intro p₁ p₂ t ht hle
    have hc : (p₁ : ℚ) ≤ (p₂ : ℚ) := by exact_mod_cast hle
    simp only [jphValue]
    by_cases h2 : 0 < (p₂ : ℚ) * 1 + t
    · rw [if_pos h2]
      by_cases h1 : 0 < (p₁ : ℚ) * 1 + t
      · rw [if_pos h1]
        have key : (p₁ : ℚ) / ((p₁ : ℚ) * 1 + t) ≤ (p₂ : ℚ) / ((p₂ : ℚ) * 1 + t) := by
          rw [div_le_div_iff₀ h1 h2]
          nlinarith [mul_le_mul_of_nonneg_right hc ht]
        exact mul_le_mul_of_nonneg_right key (by norm_num : (0 : ℚ) ≤ 3600)
      · rw [if_neg h1]
        have hp2 : (0 : ℚ) ≤ (p₂ : ℚ) := by positivity
        exact mul_nonneg (div_nonneg hp2 h2.le) (by norm_num)
    · have h1 : ¬ 0 < (p₁ : ℚ) * 1 + t := by
        intro h1
        have hh : (p₁ : ℚ) * 1 + t ≤ (p₂ : ℚ) * 1 + t := by linarith
        exact h2 (lt_of_lt_of_le h1 hh)
      rw [if_neg h2, if_neg h1]

/-- Witness for C8 at `p = 2 ≤ 3`, `t = 1`. -/
theorem jph_formula_monotone_witness :
    (0 : ℚ) ≤ 1 ∧ 2 ≤ 3 ∧ jphValue 2 1 ≤ jphValue 3 1 :=
  ⟨by norm_num, by norm_num, jph_formula_monotone.2.2 2 3 1 (by norm_num) (by norm_num)⟩

/-! ### C7: force_into_group (`find_buffer_to_break`) -/

/-- C7: `find_buffer_to_break` returns none exactly when every line of the
group is closed for input or full; otherwise it returns an input-open
non-full line of the group minimizing the rear run length, with ties
broken by maximal remaining capacity and then by the fixed group order. -/
theorem force_break_min_rear_run (s : ConveyorSystem) (ids : List LineId) (c : Color) :
    (s.find_buffer_to_break ids c = none ↔
      ∀ bid ∈ ids, ¬((s.buffer_lines bid).is_available_input = true ∧
        s.is_full bid = false)) ∧
    (∀ bid, s.find_buffer_to_break ids c = some bid →
      bid ∈ ids ∧ (s.buffer_lines bid).is_available_input = true ∧
        s.is_full bid = false ∧
        ∀ bid' ∈ ids, (s.buffer_lines bid').is_available_input = true →
          s.is_full bid' = false →
          (s.get_rear_color_group_size bid < s.get_rear_color_group_size bid' ∨
            (s.get_rear_color_group_size bid = s.get_rear_color_group_size bid' ∧
              (s.get_space bid' < s.get_space bid ∨
                (s.get_space bid = s.get_space bid' ∧
                  ids.indexOf bid ≤ ids.indexOf bid'))))) := by
  constructor
  · rw [ConveyorSystem.find_buffer_to_break, pickFirstMin_eq_none_iff,
      List.filter_eq_nil_iff]
    constructor
    · intro h bid hbid hcond
      have := h bid hbid
      simp only [Bool.and_eq_true, Bool.not_eq_true'] at this
      exact this ⟨hcond.1, hcond.2⟩
    · intro h bid hbid
      simp only [Bool.and_eq_true, Bool.not_eq_true']
      intro hcond
      exact h bid hbid ⟨hcond.1, hcond.2⟩
  · intro bid h
    rw [ConveyorSystem.find_buffer_to_break] at h
    have hmem := pickFirstMin_mem _ h
    rw [List.mem_filter] at hmem
    obtain ⟨hin, hcond⟩ := hmem
    simp only [Bool.and_eq_true, Bool.not_eq_true'] at hcond
    refine ⟨hin, hcond.1, hcond.2, ?_⟩
    intro bid' hin' havail' hfull'
    have hmem' : bid' ∈ ids.filter
        (fun b => (s.buffer_lines b).is_available_input && !s.is_full b) := by
      rw [List.mem_filter]
      exact ⟨hin', by simp [havail', hfull']⟩
    have hle := pickFirstMin_min _ h bid' hmem'
    rw [breakLe_iff] at hle
    simpa using hle


/-- Witness for C7: on `c7WitState` the break search over the O1 group
picks L3 (the empty lines L3, L4 have rear run 0, beating L2's run 1 and
L1's run 2; L3 wins the final tie with L4 by group order).  The concrete
application below evaluates the choice and the minimality facts at L1. -/
theorem force_break_min_rear_run_witness :
    c7WitState.find_buffer_to_break O1_BUFFERS .C1 = some .L3 ∧
      .L3 ∈ O1_BUFFERS ∧
      (c7WitState.buffer_lines .L3).is_available_input = true ∧
      c7WitState.is_full .L3 = false ∧
      (c7WitState.get_rear_color_group_size .L3 <
          c7WitState.get_rear_color_group_size .L1 ∨
        (c7WitState.get_rear_color_group_size .L3 =
            c7WitState.get_rear_color_group_size .L1 ∧
          (c7WitState.get_space .L1 < c7WitState.get_space .L3 ∨
            (c7WitState.get_space .L3 = c7WitState.get_space .L1 ∧
              O1_BUFFERS.indexOf LineId.L3 ≤ O1_BUFFERS.indexOf LineId.L1)))) := by
  have h := (force_break_min_rear_run c7WitState O1_BUFFERS .C1).2 .L3 (by decide)
  exact ⟨by decide, h.1, h.2.1, h.2.2.1, h.2.2.2 .L1 (by decide) (by decide) (by decide)⟩

/-! ### C6: the optimized extractor's continuity rule -/

/-- C6: outside pressure mode, when a last conveyor color is set and some
eligible line's head matches it, the optimized extractor returns the
matching line with minimal remaining capacity, ties broken by the fixed
id order. -/
theorem extractor_continuity_min_capacity (s : ConveyorSystem) (lc : Color) :
    s.are_all_o2_buffers_full = false →
    s.main_conveyor_last_color = some lc →
    s.matchingBuffers lc ≠ [] →
    ∃ bid, s.select_buffer_for_main_conveyor = some bid ∧
      bid ∈ s.matchingBuffers lc ∧
      ∀ bid' ∈ s.matchingBuffers lc,
        s.get_space bid < s.get_space bid' ∨
          (s.get_space bid = s.get_space bid' ∧
            ALL_LINES.indexOf bid ≤ ALL_LINES.indexOf bid') := by
  intro hfull hlast hne
  rw [ConveyorSystem.select_buffer_for_main_conveyor, hfull, hlast]
  simp only [Bool.false_eq_true, if_false]
  cases hm : s.matchingBuffers lc with
  | nil => exact absurd hm hne
  | cons a t =>
    cases hp : pickFirstMin
        (fun bid => (s.get_space bid, 0, ALL_LINES.indexOf bid)) (a :: t) with
    | none =>
      rw [pickFirstMin_eq_none_iff] at hp
      exact absurd hp (List.cons_ne_nil a t)
    | some bid =>
      refine ⟨bid, ?_, ?_, ?_⟩
      · rfl
      · exact pickFirstMin_mem _ hp
      · intro bid' hb'
        have hle := pickFirstMin_min _ hp bid' hb'
        rw [breakLe_iff] at hle
        simpa using hle


/-- Witness for C6: on `c6WitState` the extractor picks L2, the C2-headed
line with the smaller remaining capacity. -/
theorem extractor_continuity_min_capacity_witness :
    c6WitState.are_all_o2_buffers_full = false ∧
      c6WitState.main_conveyor_last_color = some .C2 ∧
      c6WitState.matchingBuffers .C2 ≠ [] ∧
      ∃ bid, c6WitState.select_buffer_for_main_conveyor = some bid ∧
        bid ∈ c6WitState.matchingBuffers .C2 ∧
        ∀ bid' ∈ c6WitState.matchingBuffers .C2,
          c6WitState.get_space bid < c6WitState.get_space bid' ∨
            (c6WitState.get_space bid = c6WitState.get_space bid' ∧
              ALL_LINES.indexOf bid ≤ ALL_LINES.indexOf bid') :=
  ⟨by decide, rfl, by decide,
    extractor_continuity_min_capacity c6WitState .C2 (by decide) rfl (by decide)⟩

/-! ### Membership facts for the placement helpers -/

lemma o1_o2_disjoint (bid : LineId) :
    bid ∈ O1_BUFFERS → bid ∈ O2_BUFFERS → False := by
  intro h1 h2
  fin_cases h1 <;> exact absurd h2 (by decide)

lemma f1_mem (s : ConveyorSystem) (ids : List LineId) (c : Color) (bid : LineId) :
    s.f1 ids c = some bid → bid ∈ ids := by
  rw [ConveyorSystem.f1]
  cases h1 : ids.find? (fun bid =>
      (s.buffer_lines bid).is_available_input &&
      s.is_fully_of_color bid c && !s.is_full bid) with
  | some x =>
    intro h
    cases h
    exact List.mem_of_find?_eq_some h1
  | none =>
    cases h2 : ids.find? (fun bid => s.ends_with_color bid c && !s.is_full bid) with
    | some x =>
      intro h
      cases h
      exact List.mem_of_find?_eq_some h2
    | none =>
      intro h
      exact List.mem_of_find?_eq_some h

lemma find_buffer_to_break_mem (s : ConveyorSystem) (ids : List LineId) (c : Color)
    (bid : LineId) : s.find_buffer_to_break ids c = some bid → bid ∈ ids := by
  intro h
  exact (List.mem_filter.1 (pickFirstMin_mem _ h)).1

/-! ### C4: place_for_o2 gating through the temp queue -/

/-- C4: while O2 is blocked or the temp queue is non-empty, `place_for_o2`
appends the body at the tail of the temp queue, returns the sentinel, and
touches no buffer line; only with O2 free and the temp queue empty does
it place directly, fit before force, over the O2 group. -/
theorem place_o2_temp_gating (s : ConveyorSystem) (b : VehicleBody) :
    (s.o2Stopped = true ∨ s.o2_temp_buffer ≠ [] →
      s.place_for_o2 b =
        ({ s with o2_temp_buffer := s.o2_temp_buffer ++ [b] }, O2PlaceResult.tmp) ∧
      queuesOf (s.place_for_o2 b).1 = queuesOf s) ∧
    (s.o2Stopped = false → s.o2_temp_buffer = [] →
      (s.place_for_o2 b).2 ≠ O2PlaceResult.tmp ∧
      (∀ bid, s.f1 O2_BUFFERS b.color = some bid →
        s.place_for_o2 b = (s.place_vehicle bid b, O2PlaceResult.line bid)) ∧
      (s.f1 O2_BUFFERS b.color = none →
        ∀ bid, s.find_buffer_to_break O2_BUFFERS b.color = some bid →
          s.place_for_o2 b = (s.place_vehicle bid b, O2PlaceResult.line bid)) ∧
      (s.f1 O2_BUFFERS b.color = none →
        s.find_buffer_to_break O2_BUFFERS b.color = none →
        s.place_for_o2 b = (s, O2PlaceResult.failed))) := by
  constructor
  · intro h
    have hcond : (s.o2Stopped || !s.o2_temp_buffer.isEmpty) = true := by
      rcases h with h | h
      · simp [h]
      · cases htb : s.o2_temp_buffer with
        | nil => exact absurd htb h
        | cons x xs => simp [htb]
    have heq : s.place_for_o2 b =
        ({ s with o2_temp_buffer := s.o2_temp_buffer ++ [b] }, O2PlaceResult.tmp) := by
      rw [ConveyorSystem.place_for_o2, if_pos hcond]
    exact ⟨heq, by rw [heq]; rfl⟩
  · intro h1 h2
    have hcond : ¬((s.o2Stopped || !s.o2_temp_buffer.isEmpty) = true) := by
      rw [h1, h2]
      simp
    have hif : s.place_for_o2 b =
        (match s.f1 O2_BUFFERS b.color with
          | some bid => (s.place_vehicle bid b, O2PlaceResult.line bid)
          | none =>
            match s.find_buffer_to_break O2_BUFFERS b.color with
            | some bid => (s.place_vehicle bid b, O2PlaceResult.line bid)
            | none => (s, O2PlaceResult.failed)) := by
      rw [ConveyorSystem.place_for_o2, if_neg hcond]
    refine ⟨?_, ?_, ?_, ?_⟩
    · rw [hif]
      cases hf : s.f1 O2_BUFFERS b.color with
      | some bid => simp
      | none =>
        cases hb : s.find_buffer_to_break O2_BUFFERS b.color with
        | some bid => simp
        | none => simp
    · intro bid hf
      rw [hif, hf]
    · intro hf bid hb
      rw [hif, hf, hb]
    · intro hf hb
      rw [hif, hf, hb]

/-- Witness for C4: with a body waiting in the temp buffer the new O2
body joins the queue tail; from the pristine initial state it is placed
directly on L5 (the first empty O2 line). -/
theorem place_o2_temp_gating_witness :
    (c4WitState.place_for_o2 ⟨8, .C4, .O2⟩ =
        ({ c4WitState with
            o2_temp_buffer := c4WitState.o2_temp_buffer ++ [⟨8, .C4, .O2⟩] },
          O2PlaceResult.tmp) ∧
      queuesOf (c4WitState.place_for_o2 ⟨8, .C4, .O2⟩).1 = queuesOf c4WitState) ∧
    initConveyorSystem.place_for_o2 ⟨1, .C4, .O2⟩ =
      (initConveyorSystem.place_vehicle .L5 ⟨1, .C4, .O2⟩, O2PlaceResult.line .L5) :=
  ⟨(place_o2_temp_gating c4WitState ⟨8, .C4, .O2⟩).1 (Or.inr (by decide)),
    ((place_o2_temp_gating initConveyorSystem ⟨1, .C4, .O2⟩).2 rfl rfl).2.1 .L5 (by decide)⟩

/-! ### C3: draining the O2 temp queue -/

/-- C3: `process_o2_temp_buffer` is a no-op on an empty temp queue or
while O2 is blocked; otherwise it pops exactly the head, and either
reports a destination line that belongs to the O2 group (never the O1
group) with the queue shortened to the tail, or restores the head and
leaves the whole state unchanged. -/
theorem temp_drain_head_o2_only (s : ConveyorSystem) :
    (s.o2_temp_buffer = [] → s.process_o2_temp_buffer = (s, none)) ∧
    (s.o2Stopped = true → s.process_o2_temp_buffer = (s, none)) ∧
    (∀ hd t, s.o2_temp_buffer = hd :: t → s.o2Stopped = false →
      ((s.process_o2_temp_buffer).2 = none → s.process_o2_temp_buffer = (s, none)) ∧
      (∀ b bid, (s.process_o2_temp_buffer).2 = some (b, bid) →
        b = hd ∧ bid ∈ O2_BUFFERS ∧ bid ∉ O1_BUFFERS ∧
        (s.process_o2_temp_buffer).1.o2_temp_buffer = t)) := by
  refine ⟨?_, ?_, ?_⟩
  · intro h
    rw [ConveyorSystem.process_o2_temp_buffer, h]
  · intro h
    cases htb : s.o2_temp_buffer with
    | nil => rw [ConveyorSystem.process_o2_temp_buffer, htb]
    | cons hd t =>
      rw [ConveyorSystem.process_o2_temp_buffer, htb]
      simp [h]
  · intro hd t htb hstop
    have heq : s.process_o2_temp_buffer =
        (match ({ s with o2_temp_buffer := t } : ConveyorSystem).f1 O2_BUFFERS hd.color with
          | some bid =>
            (({ s with o2_temp_buffer := t } : ConveyorSystem).place_vehicle bid hd,
              some (hd, bid))
          | none =>
            match ({ s with o2_temp_buffer := t } : ConveyorSystem).find_buffer_to_break
                O2_BUFFERS hd.color with
            | some bid =>
              (({ s with o2_temp_buffer := t } : ConveyorSystem).place_vehicle bid hd,
                some (hd, bid))
            | none => ({ s with o2_temp_buffer := hd :: t }, none)) := by
      rw [ConveyorSystem.process_o2_temp_buffer, htb, hstop]
      simp only [Bool.false_eq_true, if_false]
    cases hf : ({ s with o2_temp_buffer := t } : ConveyorSystem).f1 O2_BUFFERS hd.color with
    | some bid =>
      rw [hf] at heq
      constructor
      · intro hnone
        rw [heq] at hnone
        exact absurd hnone (by simp)
      · intro b bid' hsome
        rw [heq] at hsome
        simp only [Option.some.injEq, Prod.mk.injEq] at hsome
        obtain ⟨hb, hbid⟩ := hsome
        subst hb
        subst hbid
        have hmem := f1_mem _ _ _ _ hf
        exact ⟨rfl, hmem, fun h1 => o1_o2_disjoint _ h1 hmem, by rw [heq]; rfl⟩
    | none =>
      rw [hf] at heq
      cases hb : ({ s with o2_temp_buffer := t } : ConveyorSystem).find_buffer_to_break
          O2_BUFFERS hd.color with
      | some bid =>
        rw [hb] at heq
        constructor
        · intro hnone
          rw [heq] at hnone
          exact absurd hnone (by simp)
        · intro b bid' hsome
          rw [heq] at hsome
          simp only [Option.some.injEq, Prod.mk.injEq] at hsome
          obtain ⟨hbeq, hbid⟩ := hsome
          subst hbeq
          subst hbid
          have hmem := find_buffer_to_break_mem _ _ _ _ hb
          exact ⟨rfl, hmem, fun h1 => o1_o2_disjoint _ h1 hmem, by rw [heq]; rfl⟩
      | none =>
        rw [hb] at heq
        constructor
        · intro _
          rw [heq, ← htb]
        · intro b bid' hsome
          rw [heq] at hsome
          exact absurd hsome (by simp)

/-- Witness for C3: on `c3WitState` a drain pops the head body 5 and
routes it to L5, an O2-group line, leaving body 6 alone in the queue. -/
theorem temp_drain_head_o2_only_witness :
    c3WitState.o2_temp_buffer = ⟨5, .C2, .O2⟩ :: [⟨6, .C3, .O2⟩] ∧
      c3WitState.o2Stopped = false ∧
      (⟨5, .C2, .O2⟩ : VehicleBody) = ⟨5, .C2, .O2⟩ ∧
      LineId.L5 ∈ O2_BUFFERS ∧ LineId.L5 ∉ O1_BUFFERS ∧
      (c3WitState.process_o2_temp_buffer).1.o2_temp_buffer = [⟨6, .C3, .O2⟩] := by
  have h := ((temp_drain_head_o2_only c3WitState).2.2 ⟨5, .C2, .O2⟩ [⟨6, .C3, .O2⟩]
    rfl rfl).2 ⟨5, .C2, .O2⟩ .L5 (by decide)
  exact ⟨rfl, rfl, h.1, h.2.1, h.2.2.1, h.2.2.2⟩

/-! ### C5: changeover accounting -/

lemma countFlagged_append (l : List ConvEntry) (e : ConvEntry) :
    countFlagged (l ++ [e]) = countFlagged l + (if e.color_change then 1 else 0) := by
  simp only [countFlagged, List.filter_append, List.length_append]
  cases h : e.color_change <;> simp [h]

lemma entryColors_append (l : List ConvEntry) (e : ConvEntry) :
    entryColors (l ++ [e]) = entryColors l ++ [e.color] := by
  simp [entryColors]

lemma adjUnequal_append (l : List Color) (c : Color) :
    adjUnequal (l ++ [c]) =
      adjUnequal l +
        (match l.getLast? with
          | none => 0
          | some d => if d = c then 0 else 1) := by
  induction l with
  | nil => simp [adjUnequal]
  | cons a t ih =>
    cases t with
    | nil => simp [adjUnequal]
    | cons b t2 =>
      rw [List.cons_append]
      rw [show adjUnequal (a :: ((b :: t2) ++ [c])) =
        (if a = b then 0 else 1) + adjUnequal ((b :: t2) ++ [c]) from rfl]
      rw [ih]
      rw [show adjUnequal (a :: b :: t2) =
        (if a = b then 0 else 1) + adjUnequal (b :: t2) from rfl]
      rw [List.getLast?_cons_cons]
      omega

lemma InvC5_of_log_eq {s s' : ConveyorSystem}
    (hc : s'.color_changeovers = s.color_changeovers)
    (hs : s'.main_conveyor_sequence = s.main_conveyor_sequence)
    (hl : s'.main_conveyor_last_color = s.main_conveyor_last_color)
    (h : InvC5 s) : InvC5 s' := by
  obtain ⟨h1, h2, h3⟩ := h
  exact ⟨by rw [hc, hs, h1], by rw [hc, hs, h2], by rw [hl, hs, h3]⟩

lemma place_for_o1_log_frame (s : ConveyorSystem) (b : VehicleBody) :
    (s.place_for_o1 b).1.color_changeovers = s.color_changeovers ∧
    (s.place_for_o1 b).1.main_conveyor_sequence = s.main_conveyor_sequence ∧
    (s.place_for_o1 b).1.main_conveyor_last_color = s.main_conveyor_last_color := by
  rw [ConveyorSystem.place_for_o1]
  repeat' split
  all_goals exact ⟨rfl, rfl, rfl⟩

lemma place_for_o2_log_frame (s : ConveyorSystem) (b : VehicleBody) :
    (s.place_for_o2 b).1.color_changeovers = s.color_changeovers ∧
    (s.place_for_o2 b).1.main_conveyor_sequence = s.main_conveyor_sequence ∧
    (s.place_for_o2 b).1.main_conveyor_last_color = s.main_conveyor_last_color := by
  rw [ConveyorSystem.place_for_o2]
  repeat' split
  all_goals exact ⟨rfl, rfl, rfl⟩

lemma drain_log_frame (s : ConveyorSystem) :
    (s.process_o2_temp_buffer).1.color_changeovers = s.color_changeovers ∧
    (s.process_o2_temp_buffer).1.main_conveyor_sequence = s.main_conveyor_sequence ∧
    (s.process_o2_temp_buffer).1.main_conveyor_last_color = s.main_conveyor_last_color := by
  rw [ConveyorSystem.process_o2_temp_buffer]
  repeat' split
  all_goals try exact ⟨rfl, rfl, rfl⟩
  all_goals dsimp only
  all_goals repeat' split
  all_goals exact ⟨rfl, rfl, rfl⟩

lemma conveyorExtractOpt_inv (s : ConveyorSystem) (h : InvC5 s) :
    InvC5 (conveyorExtractOpt s) := by
  obtain ⟨h1, h2, h3⟩ := h
  rw [conveyorExtractOpt]
  cases hsel : s.select_buffer_for_main_conveyor with
  | none => exact ⟨h1, h2, h3⟩
  | some bid =>
    dsimp only
    cases hrem : (s.buffer_lines bid).remove_body with
    | mk ob nl =>
      cases ob with
      | none => exact ⟨h1, h2, h3⟩
      | some b =>
        dsimp only
        cases hl : s.main_conveyor_last_color with
        | none =>
          rw [h3] at hl
          dsimp only
          simp only [Bool.false_eq_true, if_false]
          refine ⟨?_, ?_, ?_⟩
          · rw [countFlagged_append, h1]
            simp
          · rw [entryColors_append, adjUnequal_append, hl]
            simp [← h2]
          · rw [entryColors_append, List.getLast?_concat]
        | some c =>
          rw [h3] at hl
          dsimp only
          by_cases hcb : c = b.color
          · have hflag : (decide (c ≠ b.color)) = false := by simp [hcb]
            rw [hflag]
            simp only [Bool.false_eq_true, if_false]
            refine ⟨?_, ?_, ?_⟩
            · rw [countFlagged_append, h1]
              simp
            · rw [entryColors_append, adjUnequal_append, hl]
              simp [hcb, ← h2]
            · rw [entryColors_append, List.getLast?_concat]
          · have hflag : (decide (c ≠ b.color)) = true := by simp [hcb]
            rw [hflag]
            simp only [if_true]
            refine ⟨?_, ?_, ?_⟩
            · rw [countFlagged_append, h1]
              simp
            · rw [entryColors_append, adjUnequal_append, hl]
              simp [hcb, ← h2]
            · rw [entryColors_append, List.getLast?_concat]

lemma tickOpt_inv (s : ConveyorSystem) (c1 c2 : Color) (h : InvC5 s) :
    InvC5 (tickOpt s c1 c2) := by
  rw [tickOpt]
  dsimp only
  apply conveyorExtractOpt_inv
  apply InvC5_of_log_eq (place_for_o2_log_frame _ _).1
    (place_for_o2_log_frame _ _).2.1 (place_for_o2_log_frame _ _).2.2
  split
  · apply InvC5_of_log_eq (drain_log_frame _).1
      (drain_log_frame _).2.1 (drain_log_frame _).2.2
    apply InvC5_of_log_eq (place_for_o1_log_frame _ _).1
      (place_for_o1_log_frame _ _).2.1 (place_for_o1_log_frame _ _).2.2
    exact h
  · apply InvC5_of_log_eq (place_for_o1_log_frame _ _).1
      (place_for_o1_log_frame _ _).2.1 (place_for_o1_log_frame _ _).2.2
    exact h

lemma applyStep_inv (s : ConveyorSystem) (st : UIStep) (h : InvC5 s) :
    InvC5 (applyStep s st) := by
  cases st with
  | fullCycle c1 c2 => exact tickOpt_inv _ _ _ h
  | convOnly => exact conveyorExtractOpt_inv _ h
  | setInput l v => exact h
  | setOutput l v => exact h

lemma runSteps_inv (steps : List UIStep) :
    ∀ s : ConveyorSystem, InvC5 s → InvC5 (runSteps s steps) := by
  induction steps with
  | nil => intro s h; exact h
  | cons st rest ih => intro s h; exact ih _ (applyStep_inv _ _ h)

/-- C5: after any sequence of engine actions from the initial state, the
changeover counter equals the number of log entries whose change flag is
set, and equals the number of adjacent unequal-color pairs of the log. -/
theorem changeover_accounting_invariant (steps : List UIStep) :
    (runSteps initConveyorSystem steps).color_changeovers =
      countFlagged (runSteps initConveyorSystem steps).main_conveyor_sequence ∧
    (runSteps initConveyorSystem steps).color_changeovers =
      adjUnequal (entryColors (runSteps initConveyorSystem steps).main_conveyor_sequence) := by
  have h := runSteps_inv steps initConveyorSystem ⟨rfl, rfl, rfl⟩
  exact ⟨h.1, h.2.1⟩

/-! ### C2: o2Stopped reflects the routing of the last O1 placement -/

lemma rrScan_some (p : LineId → Bool) (ids : List LineId) :
    ∀ (fuel counter j : Nat), counter < ids.length →
      rrScan p ids counter fuel = some j →
      j < ids.length ∧ p (ids.getD j .L1) = true := by
  intro fuel
  induction fuel with
  | zero => intro counter j h hscan; simp [rrScan] at hscan
  | succ n ih =>
    intro counter j h hscan
    rw [rrScan] at hscan
    by_cases hp : p (ids.getD counter .L1) = true
    · rw [if_pos hp] at hscan
      cases hscan
      exact ⟨h, hp⟩
    · rw [if_neg hp] at hscan
      have hlen : 0 < ids.length := Nat.lt_of_le_of_lt (Nat.zero_le _) h
      exact ih _ j (Nat.mod_lt _ hlen) hscan

lemma getD_mem (ids : List LineId) (j : Nat) (h : j < ids.length) :
    ids.getD j .L1 ∈ ids := by
  rw [List.getD_eq_getElem?_getD, List.getElem?_eq_getElem h]
  exact List.getElem_mem _

lemma rr_place_fst_o2Stopped (u : SimpleRoundRobinConveyorSystem) (x : Bool) :
    (u.simple_round_robin_placement x).1.o2Stopped = u.o2Stopped := by
  rw [SimpleRoundRobinConveyorSystem.simple_round_robin_placement]
  cases x <;> dsimp only <;> (repeat' split) <;> rfl

lemma rr_place_true_o2_counter (u : SimpleRoundRobinConveyorSystem) :
    (u.simple_round_robin_placement true).1.o2_buffer_counter = u.o2_buffer_counter := by
  rw [SimpleRoundRobinConveyorSystem.simple_round_robin_placement]
  dsimp only
  repeat' split
  all_goals rfl

lemma rr_place_some_mem_o1 (u : SimpleRoundRobinConveyorSystem) (bid : LineId)
    (hc : u.o1_buffer_counter < 4) :
    (u.simple_round_robin_placement true).2 = some bid → bid ∈ O1_BUFFERS := by
  rw [SimpleRoundRobinConveyorSystem.simple_round_robin_placement]
  simp only [Bool.cond_true]
  cases hscan : rrScan (fun bid => !u.is_full bid) O1_BUFFERS u.o1_buffer_counter
      O1_BUFFERS.length with
  | some j =>
    intro h
    cases h
    have hj := rrScan_some (fun bid => !u.is_full bid) O1_BUFFERS _ _ _ hc hscan
    exact getD_mem _ _ hj.1
  | none => intro h; cases h

lemma rr_place_some_mem_o2 (u : SimpleRoundRobinConveyorSystem) (bid : LineId)
    (hc : u.o2_buffer_counter < 5) :
    (u.simple_round_robin_placement false).2 = some bid → bid ∈ O2_BUFFERS := by
  rw [SimpleRoundRobinConveyorSystem.simple_round_robin_placement]
  simp only [Bool.cond_false]
  cases hscan : rrScan (fun bid => !u.is_full bid) O2_BUFFERS u.o2_buffer_counter
      O2_BUFFERS.length with
  | some j =>
    intro h
    cases h
    have hj := rrScan_some (fun bid => !u.is_full bid) O2_BUFFERS _ _ _ hc hscan
    exact getD_mem _ _ hj.1
  | none => intro h; cases h

/-- C2 (amended): in both systems, after any `place_for_o1` call,
`o2Stopped` holds exactly when that call routed the body to an O2-group
line (returned an O2-group line id); the previous value of `o2Stopped` is
always cleared first.  (The round-robin half assumes the round-robin
cursors are in range, which holds in every state the code constructs.) -/
theorem place_o1_o2stopped_iff_routed :
    (∀ (s : ConveyorSystem) (b : VehicleBody),
      (s.place_for_o1 b).1.o2Stopped = true ↔
        ∃ l ∈ O2_BUFFERS, (s.place_for_o1 b).2.1 = some l) ∧
    (∀ (t : SimpleRoundRobinConveyorSystem) (b : VehicleBody),
      t.o1_buffer_counter < 4 → t.o2_buffer_counter < 5 →
      ((t.place_for_o1 b).1.o2Stopped = true ↔
        ∃ l ∈ O2_BUFFERS, (t.place_for_o1 b).2.1 = some l)) := by
  constructor
  · intro s b
    rw [ConveyorSystem.place_for_o1]
    dsimp only
    cases hf1 : ({ s with o2Stopped := false } : ConveyorSystem).f1 O1_BUFFERS b.color with
    | some bid =>
      constructor
      · intro hst
        exact absurd hst (by simp [show
          ((({ s with o2Stopped := false } : ConveyorSystem).place_vehicle bid b)).o2Stopped
            = false from rfl])
      · rintro ⟨l, hl, heq⟩
        obtain rfl : bid = l := by injection heq
        exact absurd hl (fun hl => o1_o2_disjoint bid (f1_mem _ _ _ _ hf1) hl)
    | none =>
      cases hf2 : ({ s with o2Stopped := false } : ConveyorSystem).f1 O2_BUFFERS b.color with
      | some bid =>
        constructor
        · intro _
          exact ⟨bid, f1_mem _ _ _ _ hf2, rfl⟩
        · intro _
          rfl
      | none =>
        cases hb1 : ({ s with o2Stopped := false } : ConveyorSystem).find_buffer_to_break
            O1_BUFFERS b.color with
        | some bid =>
          constructor
          · intro hst
            exact absurd hst (by simp [show
              ((({ s with o2Stopped := false } : ConveyorSystem).place_vehicle bid b)).o2Stopped
                = false from rfl])
          · rintro ⟨l, hl, heq⟩
            obtain rfl : bid = l := by injection heq
            exact absurd hl (fun hl =>
              o1_o2_disjoint bid (find_buffer_to_break_mem _ _ _ _ hb1) hl)
        | none =>
          cases hb2 : ({ s with o2Stopped := false } : ConveyorSystem).find_buffer_to_break
              O2_BUFFERS b.color with
          | some bid =>
            constructor
            · intro _
              exact ⟨bid, find_buffer_to_break_mem _ _ _ _ hb2, rfl⟩
            · intro _
              rfl
          | none =>
            constructor
            · intro hst
              exact absurd hst (by simp)
            · rintro ⟨l, hl, heq⟩
              cases heq
  · intro t b hc1 hc2
    rw [SimpleRoundRobinConveyorSystem.place_for_o1]
    dsimp only
    cases hp1 : (({ t with o2Stopped := false } :
        SimpleRoundRobinConveyorSystem).simple_round_robin_placement true).2 with
    | some bid =>
      constructor
      · intro hst
        rw [show ((({ t with o2Stopped := false } :
            SimpleRoundRobinConveyorSystem).simple_round_robin_placement
              true).1.place_vehicle bid b).o2Stopped =
          (({ t with o2Stopped := false } :
            SimpleRoundRobinConveyorSystem).simple_round_robin_placement
              true).1.o2Stopped from rfl, rr_place_fst_o2Stopped] at hst
        exact absurd hst (by simp)
      · rintro ⟨l, hl, heq⟩
        obtain rfl : bid = l := by injection heq
        exact absurd hl (fun hl =>
          o1_o2_disjoint bid (rr_place_some_mem_o1 _ _ (by exact hc1) hp1) hl)
    | none =>
      cases hp2 : ((({ t with o2Stopped := false } :
          SimpleRoundRobinConveyorSystem).simple_round_robin_placement
            true).1.simple_round_robin_placement false).2 with
      | some bid =>
        constructor
        · intro _
          refine ⟨bid, ?_, rfl⟩
          apply rr_place_some_mem_o2 _ _ _ hp2
          rw [rr_place_true_o2_counter]
          exact hc2
        · intro _
          rfl
      | none =>
        constructor
        · intro hst
          rw [show ((({ t with o2Stopped := false } :
              SimpleRoundRobinConveyorSystem).simple_round_robin_placement
                true).1.simple_round_robin_placement false).1.o2Stopped =
            ({ t with o2Stopped := false } :
              SimpleRoundRobinConveyorSystem).o2Stopped from by
                rw [rr_place_fst_o2Stopped, rr_place_fst_o2Stopped]] at hst
          exact absurd hst (by simp)
        · rintro ⟨l, hl, heq⟩
          cases heq

/-- Counterexample for C2 as stated: on `c2CexState` the `place_for_o1`
call sets `o2Stopped` although no line's queue changed — the body was
routed to L5 but never stored, because L5's input gate is closed and the
`add_body` failure is ignored. -/
theorem place_o1_o2stopped_counterexample :
    (c2CexState.place_for_o1 ⟨3, .C1, .O1⟩).1.o2Stopped = true ∧
    (c2CexState.place_for_o1 ⟨3, .C1, .O1⟩).2.1 = some .L5 ∧
    queuesOf (c2CexState.place_for_o1 ⟨3, .C1, .O1⟩).1 = queuesOf c2CexState ∧
    (c2CexState.place_for_o1 ⟨3, .C1, .O1⟩).1.o2_temp_buffer =
      c2CexState.o2_temp_buffer := by
  decide

/-- Witness for C2: the amended equivalence applied to the two pristine
initial systems (whose round-robin cursors are 0). -/
theorem place_o1_o2stopped_iff_routed_witness :
    ((initConveyorSystem.place_for_o1 ⟨1, .C1, .O1⟩).1.o2Stopped = true ↔
      ∃ l ∈ O2_BUFFERS, (initConveyorSystem.place_for_o1 ⟨1, .C1, .O1⟩).2.1 = some l) ∧
    ((initRoundRobinSystem.place_for_o1 ⟨1, .C1, .O1⟩).1.o2Stopped = true ↔
      ∃ l ∈ O2_BUFFERS,
        (initRoundRobinSystem.place_for_o1 ⟨1, .C1, .O1⟩).2.1 = some l) :=
  ⟨place_o1_o2stopped_iff_routed.1 initConveyorSystem ⟨1, .C1, .O1⟩,
    place_o1_o2stopped_iff_routed.2 initRoundRobinSystem ⟨1, .C1, .O1⟩
      (by decide) (by decide)⟩

/-! ### C9: the phantom O1-cross placement is reachable -/

/-- C9: a reachable state exists (reached by one full cycle on (C1, C1)
followed by closing every input gate) in which `place_for_o1` reports a
successful, penalized placement on L5 — L5 is non-empty, not full, ends
in the body's color, but its input gate is closed — while no queue gains
the body: `add_body` returns false and the result is ignored. -/
theorem o1_cross_phantom_placement_reachable :
    ∃ s : ConveyorSystem, (∃ steps, runSteps initConveyorSystem steps = s) ∧
      (s.place_for_o1 ⟨3, .C1, .O1⟩).2.1 = some .L5 ∧
      (s.place_for_o1 ⟨3, .C1, .O1⟩).2.2.1 = true ∧
      (s.place_for_o1 ⟨3, .C1, .O1⟩).2.2.2 = true ∧
      (s.place_for_o1 ⟨3, .C1, .O1⟩).1.penaltyCount = s.penaltyCount + 1 ∧
      (s.place_for_o1 ⟨3, .C1, .O1⟩).1.total_penalty_time = s.total_penalty_time + 1 ∧
      (s.buffer_lines .L5).is_available_input = false ∧
      ((s.buffer_lines .L5).add_body ⟨3, .C1, .O1⟩).2 = false ∧
      (s.buffer_lines .L5).queue ≠ [] ∧
      (s.buffer_lines .L5).is_full = false ∧
      s.get_rear_color .L5 = some .C1 ∧
      queuesOf (s.place_for_o1 ⟨3, .C1, .O1⟩).1 = queuesOf s ∧
      ((queuesOf (s.place_for_o1 ⟨3, .C1, .O1⟩).1).flatten.all
        (fun bb => decide (bb.body_id ≠ 3))) = true ∧
      (s.place_for_o1 ⟨3, .C1, .O1⟩).1.o2_temp_buffer = [] := by
  refine ⟨c9State, ⟨c9Steps, rfl⟩, ?_⟩
  decide

/-! ### C10: the round-robin extractor ignores the output gate -/

/-- C10: when the round-robin scan finds its first non-empty line at
cursor position `j` and that line's output gate is closed, the selector
still returns that line and advances the cursor past it, `remove_body`
yields nothing, and the extraction step changes nothing but the cursor:
no counter, no penalty time, and no queue moves, even though other
non-empty open-output lines may exist. -/
theorem rr_extraction_closed_output_idle (t : SimpleRoundRobinConveyorSystem) (j : Nat) :
    rrScan (fun bid => !t.is_empty bid) ALL_LINES t.conveyor_buffer_counter
      ALL_LINES.length = some j →
    (t.buffer_lines (ALL_LINES.getD j .L1)).is_available_output = false →
    (t.select_buffer_for_main_conveyor).2 = some (ALL_LINES.getD j .L1) ∧
    ((t.buffer_lines (ALL_LINES.getD j .L1)).remove_body).1 = none ∧
    conveyorExtractRR t =
      { t with conveyor_buffer_counter := (j + 1) % ALL_LINES.length } := by
  intro hscan hout
  have hsel : t.simple_round_robin_extraction =
      ({ t with conveyor_buffer_counter := (j + 1) % ALL_LINES.length },
        some (ALL_LINES.getD j .L1)) := by
    rw [SimpleRoundRobinConveyorSystem.simple_round_robin_extraction, hscan]
  have hrem : (t.buffer_lines (ALL_LINES.getD j .L1)).remove_body =
      (none, t.buffer_lines (ALL_LINES.getD j .L1)) := by
    rw [BufferLine.remove_body, if_pos (by rw [hout]; simp)]
  refine ⟨?_, ?_, ?_⟩
  · rw [SimpleRoundRobinConveyorSystem.select_buffer_for_main_conveyor, hsel]
  · rw [hrem]
  · rw [conveyorExtractRR, SimpleRoundRobinConveyorSystem.select_buffer_for_main_conveyor,
      hsel]
    dsimp only
    rw [hrem]

/-- Witness for C10 on `c10WitState`: the scan stops at cursor 0 (line
L1, closed output), the selector returns L1, and the extraction only
advances the cursor — although L2 is non-empty with an open output. -/
theorem rr_extraction_closed_output_idle_witness :
    (c10WitState.select_buffer_for_main_conveyor).2 = some (ALL_LINES.getD 0 .L1) ∧
    ((c10WitState.buffer_lines (ALL_LINES.getD 0 .L1)).remove_body).1 = none ∧
    conveyorExtractRR c10WitState =
      { c10WitState with conveyor_buffer_counter := (0 + 1) % ALL_LINES.length } :=
  rr_extraction_closed_output_idle c10WitState 0 (by decide) (by decide)
